import Mathlib

/-!
Shallow embedding of the kernel-communication core of the
tenant-data-browser repository (src/src/components/kernelCommunication.tsx
and the kernel-backed query composer), together with proofs of the
specification claims about it.

Strings from the JavaScript side are modelled as `List Char`; JavaScript
`undefined`/`null` are modelled with `Option`; code that can throw is
modelled in `Except`.
-/

/-- JavaScript strings are modelled as lists of characters. -/
abbrev LCStr := List Char

/-- The apostrophe character stripped by parseKernelOutputJSON. -/
def squote : Char := Char.ofNat 39

/-- The typed kernel error kinds (KernelErrorType in the source). -/
inductive KernelErrorType
  | not_available
  | not_ready
  | execution_error
  | timeout
  | dead
deriving DecidableEq, Repr

/-- KernelError from the source: a typed error kind with optional
engine-reported name, message and traceback (the human-readable
`message` string is not modelled; no claim mentions it). -/
structure KernelError where
  type : KernelErrorType
  ename : Option LCStr := none
  evalue : Option LCStr := none
  traceback : Option (List LCStr) := none
deriving DecidableEq, Repr

/-- Mime keys of an output envelope: the code only ever tests membership
of the single key named text/plain. -/
inductive MimeType
  | textPlain
  | otherMime
deriving DecidableEq, Repr

/-- A JavaScript value sitting in a mime bundle entry. -/
inductive JsVal
  | str (s : LCStr)
  | nonStr
deriving DecidableEq, Repr

/-- The `data` field of an IOutput: either a plain object (a mime bundle,
modelled as an association list) or some non-object value. -/
inductive OutputData
  | objData (entries : List (MimeType × JsVal))
  | nonObjData
deriving DecidableEq, Repr

/-- IOutput (from jupyterlab nbformat), restricted to the single field the
code reads: `data`, which may be absent. -/
structure IOutput where
  data : Option OutputData
deriving DecidableEq, Repr

/-- Exceptions that the modelled JavaScript code can throw: a TypeError
(property access or string-method call on a non-string/undefined) or a
JSON.parse failure. -/
inductive JsErr
  | typeError
  | jsonParseError
deriving DecidableEq, Repr

/-- Key lookup in a mime bundle (the JS membership test
and the subsequent indexing of output.data). -/
def lookupMime (entries : List (MimeType × JsVal)) (k : MimeType) : Option JsVal :=
  match entries with
  | [] => none
  | (k0, v) :: rest => if k0 = k then some v else lookupMime rest k

/-- The quote stripping done by parseKernelOutputJSON:
rawText.replace on the anchored alternation of a leading or a trailing
apostrophe (global flag): removes one leading apostrophe if present and
one trailing apostrophe if present, never more. -/
def stripQuotes (s : LCStr) : LCStr :=
  let s1 := match s with
    | c :: t => if c = squote then t else s
    | [] => []
  if s1.getLast? = some squote then s1.dropLast else s1

/-- The try-block of parseKernelOutputJSON: coerce the text/plain payload
to a string (a string method on a non-string throws a TypeError), strip
one layer of quotes, JSON-decode.  `decode` stands for JSON.parse
followed by the unchecked cast to the expected type: it returns none
exactly when JSON.parse throws. -/
def parseTry {J : Type} (decode : LCStr → Option J) (payload : JsVal) :
    Except JsErr J :=
  match payload with
  | .str s =>
    match decode (stripQuotes s) with
    | some v => .ok v
    | none => .error .jsonParseError
  | .nonStr => .error .typeError

/-- parseKernelOutputJSON from the source.  The guard chain
(output exists, output.data exists and is truthy, is an object, has a
text/plain key) returns undefined when it fails; the try/catch turns any
exception from the try-block into undefined.  The Except layer records
whether an exception escapes to the caller: the code is supposed never
to produce `.error`. -/
def parseKernelOutputJSON {J : Type} (decode : LCStr → Option J)
    (output : Option IOutput) : Except JsErr (Option J) :=
  match output with
  | none => .ok none
  | some o =>
    match o.data with
    | some (.objData entries) =>
      match lookupMime entries .textPlain with
      | some payload =>
        match parseTry decode payload with
        | .ok v => .ok (some v)
        | .error _ => .ok none
      | none => .ok none
    | _ => .ok none

/-- An output envelope whose data carries exactly a text/plain string
payload `t` (the shape produced by an execute_result whose value was
echoed as text). -/
def mkTextOutput (t : LCStr) : Option IOutput :=
  some ⟨some (.objData [(.textPlain, .str t)])⟩

/-! ## Readiness waiter (waitForKernelReady) -/

/-- Kernel connection statuses relevant to waitForKernelReady. -/
inductive KStatus
  | idle
  | busy
  | starting
  | restarting
  | dead
  | unknown
deriving DecidableEq, Repr

/-- readyStatuses from the source. -/
def readyStatuses : List KStatus := [.idle]

/-- badStatuses from the source. -/
def badStatuses : List KStatus := [.dead, .unknown]

/-- The error raised for a bad status: dead maps to the dead kind,
unknown to not_ready. -/
def badStatusError (s : KStatus) : KernelError :=
  ⟨if s = .dead then .dead else .not_ready, none, none, none⟩

/-- Outcome of one waitForKernelReady call. -/
inductive WaitOutcome
  | ready
  | failed (e : KernelError)
deriving DecidableEq, Repr

/-- Observable state of one waitForKernelReady invocation: whether the
onStatusChanged observer is currently connected to kernel.statusChanged,
whether the timer is still pending, and the settled outcome of the
promise, if any (a JS promise settles at most once: later resolve/reject
calls are ignored, modelled by Option.orElse-style first-writer-wins). -/
structure WaitState where
  connected : Bool
  timerActive : Bool
  outcome : Option WaitOutcome
deriving DecidableEq, Repr

/-- Events a pending waitForKernelReady call can observe: a status-change
notification (carrying the kernel status read inside the handler) or the
firing of its timeout timer. -/
inductive WaitEvent
  | statusChanged (s : KStatus)
  | timerFire
deriving DecidableEq, Repr

/-- The synchronous prefix of waitForKernelReady: status already ready
returns at once, a bad status throws at once — in both cases no observer
is connected and no timer started.  Otherwise it connects the observer
and starts the timer. -/
def waitForKernelReadyInit (s : KStatus) : WaitState :=
  if s ∈ readyStatuses then ⟨false, false, some .ready⟩
  else if s ∈ badStatuses then ⟨false, false, some (.failed (badStatusError s))⟩
  else ⟨true, true, none⟩

/-- One event of a pending waitForKernelReady call, following the source:
the onStatusChanged handler clears the timer, disconnects itself and
settles the promise on a ready or bad status and does nothing otherwise;
the timeout callback rejects with a timeout error but does NOT disconnect
the observer (and a settled promise ignores later resolutions). -/
def waitForKernelReadyStep (st : WaitState) (e : WaitEvent) : WaitState :=
  match e with
  | .statusChanged s =>
    if st.connected then
      if s ∈ readyStatuses then
        ⟨false, false, st.outcome.orElse fun _ => some .ready⟩
      else if s ∈ badStatuses then
        ⟨false, false, st.outcome.orElse fun _ => some (.failed (badStatusError s))⟩
      else st
    else st
  | .timerFire =>
    if st.timerActive then
      { st with timerActive := false,
                outcome := st.outcome.orElse fun _ => some (.failed ⟨.timeout, none, none, none⟩) }
    else st

/-- A whole waitForKernelReady run: the synchronous prefix at the initial
kernel status, then the observed events in order. -/
def waitForKernelReadyRun (s0 : KStatus) (es : List WaitEvent) : WaitState :=
  es.foldl waitForKernelReadyStep (waitForKernelReadyInit s0)

/-! ## Execution protocol client (queryKernel) -/

/-- The two stream channels. -/
inductive StreamCh
  | stdout
  | stderr
deriving DecidableEq, Repr

/-- IOPub messages dispatched by queryKernel's onIOPub handler, keyed by
msg_type: the three result-bearing kinds, stream text, error, and any
other message type. -/
inductive IOPubMsg
  | executeResult (content : IOutput)
  | displayData (content : IOutput)
  | updateDisplayData (content : IOutput)
  | streamText (ch : StreamCh) (text : LCStr)
  | errorMsg (ename : LCStr) (evalue : LCStr) (traceback : Option (List LCStr))
  | otherMsg
deriving DecidableEq, Repr

/-- Events seen by one queryKernel execution request: an IOPub message on
the request future, or the firing of the KERNEL_EXEC_TIMEOUT_MS timer. -/
inductive ExecEvent
  | iopub (m : IOPubMsg)
  | timerFire
deriving DecidableEq, Repr

/-- The resolution of queryKernel's inner promise: either a data envelope
or a typed kernel error. -/
inductive ExecOutcome
  | dataOut (d : IOutput)
  | errOut (e : KernelError)
deriving DecidableEq, Repr

/-- One step of queryKernel's message handling, following the source
switch: result-bearing messages and errors resolve only when hasResolved
is still false (the `hasResolved` guard is the `Option.isSome` test on
the accumulated outcome); stream text only logs; other message types are
ignored; the timeout callback resolves with a timeout error when nothing
has resolved yet. -/
def queryKernelStep (st : Option ExecOutcome) (e : ExecEvent) : Option ExecOutcome :=
  match e with
  | .iopub (.executeResult c) => if st.isSome then st else some (.dataOut c)
  | .iopub (.displayData c) => if st.isSome then st else some (.dataOut c)
  | .iopub (.updateDisplayData c) => if st.isSome then st else some (.dataOut c)
  | .iopub (.streamText _ _) => st
  | .iopub (.errorMsg en ev tb) =>
    if st.isSome then st
    else some (.errOut ⟨.execution_error, some en, some ev, tb⟩)
  | .iopub .otherMsg => st
  | .timerFire => if st.isSome then st else some (.errOut ⟨.timeout, none, none, none⟩)

/-- The resolution state of one queryKernel execution request after a
sequence of events (none = still pending). -/
def queryKernelRun (es : List ExecEvent) : Option ExecOutcome :=
  es.foldl queryKernelStep none

/-- Errors produced by waitForKernelReady as seen by queryKernel's catch:
either a typed KernelError or some other thrown value. -/
inductive ReadyError
  | typed (e : KernelError)
  | untyped
deriving DecidableEq, Repr

/-- The pre-execution phase of queryKernel (lines before requestExecute):
no live kernel fails immediately with not_available; a readiness-wait
error is returned unchanged when it is a KernelError and wrapped as
not_ready otherwise; on success it proceeds to execution (modelled as
`none`, i.e. no early error). -/
def queryKernelPre (kernel : Option Unit) (ready : Except ReadyError Unit) :
    Option KernelError :=
  match kernel with
  | none => some ⟨.not_available, none, none, none⟩
  | some _ =>
    match ready with
    | .ok _ => none
    | .error (.typed e) => some e
    | .error .untyped => some ⟨.not_ready, none, none, none⟩

/-! ## Session manager (getOrCreateSharedSession) -/

/-- What one caller of getOrCreateSharedSession ends up with: the shared
session (identified by a numeric id) or a thrown initialization error
(identified by a numeric id so that "the same error" is expressible). -/
inductive AcquireOutcome
  | gotSession (sid : Nat)
  | gotError (eid : Nat)
deriving DecidableEq, Repr

/-- The persistent error recorded by the death observer. -/
inductive SharedErr
  | reconnectFailed
deriving DecidableEq, Repr

/-- The module-level state of kernelCommunication.tsx together with the
bookkeeping needed to state the claims: sharedSessionContext,
sharedSessionPromise (identified by the index of the initialization
attempt it belongs to), sharedSessionError, the number of initialization
attempts started (each provisions at most one engine connection), the
number of reconnection attempts made by the death observer, the callers
currently awaiting the in-flight promise, and the outcomes of settled
callers. -/
structure SMState where
  ctx : Option Nat
  prom : Option Nat
  err : Option SharedErr
  initCount : Nat
  reconnectCount : Nat
  waiters : List Nat
  outcomes : List (Nat × AcquireOutcome)
deriving DecidableEq, Repr

/-- The initial module state: nothing initialized. -/
def smInit : SMState := ⟨none, none, none, 0, 0, [], []⟩

/-- Events of the session-manager model: a caller invoking
getOrCreateSharedSession (scheduled atomically: the code from the
sharedSessionContext check to the sharedSessionPromise assignment has no
await point), the settlement of the in-flight initialization, and the
death observer firing with the result of its reconnection attempt. -/
inductive SMEvent
  | arrive (c : Nat)
  | settleInit (r : Except Nat Nat)
  | deadReport (reconnectOk : Bool)

/-- One step of the session manager, following the source:
arrive: return the existing context if set, else attach to the in-flight
promise if set, else start a new initialization (one engine provisioning)
and attach to it.
settleInit ok: sharedSessionContext is assigned and every waiter resumes
with that same session; the promise is left in place (the context check
short-circuits it from then on).
settleInit error: every waiter's catch clears sharedSessionPromise and
rethrows the same error to that caller.
deadReport: the statusChanged observer installed on the established
session sees a dead status and makes exactly one changeKernel attempt;
success clears sharedSessionError, failure records a persistent error. -/
def getOrCreateSharedSessionStep (st : SMState) (e : SMEvent) : SMState :=
  match e with
  | .arrive c =>
    match st.ctx with
    | some s => { st with outcomes := (c, .gotSession s) :: st.outcomes }
    | none =>
      match st.prom with
      | some _ => { st with waiters := c :: st.waiters }
      | none =>
        { st with prom := some st.initCount,
                  initCount := st.initCount + 1,
                  waiters := c :: st.waiters }
  | .settleInit r =>
    match st.prom with
    | none => st
    | some _ =>
      match r with
      | .ok s =>
        { st with ctx := some s,
                  outcomes := st.waiters.map (fun c => (c, .gotSession s)) ++ st.outcomes,
                  waiters := [] }
      | .error eid =>
        { st with prom := none,
                  outcomes := st.waiters.map (fun c => (c, .gotError eid)) ++ st.outcomes,
                  waiters := [] }
  | .deadReport ok =>
    match st.ctx with
    | none => st
    | some _ =>
      if ok then
        { st with reconnectCount := st.reconnectCount + 1, err := none }
      else
        { st with reconnectCount := st.reconnectCount + 1, err := some .reconnectFailed }

/-- A run of the session manager from the fresh module state. -/
def sessionManagerRun (es : List SMEvent) : SMState :=
  es.foldl getOrCreateSharedSessionStep smInit

/-- N callers arriving in order 0, 1, ..., n-1. -/
def arrivals (n : Nat) : List SMEvent :=
  (List.range n).map SMEvent.arrive

/-- The outcome every waiter of an initialization settling with `r`
receives. -/
def settleOutcome (r : Except Nat Nat) : AcquireOutcome :=
  match r with
  | .ok s => .gotSession s
  | .error e => .gotError e

/-! ## Filtered-query composer (fetchFilteredDatabases) -/

/-- The namespace-prefix record of the composite query result
(INamespacePrefixResponse).  Source field names: username,
user_namespace_prefix, tenant, tenant_namespace_prefix; every field is
Option because the decoded JSON may lack it (and tenant_namespace_prefix
is null when no tenant applies). -/
structure PrefixRecord where
  username : Option LCStr := none
  userNsPre : Option LCStr := none
  tenant : Option LCStr := none
  tenantNsPre : Option LCStr := none
deriving DecidableEq, Repr

/-- The decoded composite query result: a record with a `databases` list
and a `prefix` record, either of which the decoded JSON may lack
(prefixRec models the source field named prefix). -/
structure DatabasesResponse where
  databases : Option (List LCStr) := none
  prefixRec : Option PrefixRecord := none
deriving DecidableEq, Repr

/-- What queryKernel returns to fetchFilteredDatabases: an object with
optional data and error fields. -/
structure QueryResult where
  data : Option IOutput := none
  error : Option KernelError := none
deriving DecidableEq, Repr

/-- Errors propagating out of fetchFilteredDatabases: a re-raised
KernelError, or a JavaScript runtime exception. -/
inductive FetchErr
  | kernelError (e : KernelError)
  | jsError (e : JsErr)
deriving DecidableEq, Repr

/-- JS truthiness of the selected prefix value (the `prefix ? ... : []`
conditional): undefined/null and the empty string are falsy, every
non-empty string is truthy. -/
def jsTruthyStr : Option LCStr → Bool
  | none => false
  | some [] => false
  | some (_ :: _) => true

/-- fetchFilteredDatabases from the source (the kernel-backed version;
the server-API version shares every line from the `databases` guard on).
`decode` abstracts JSON.parse of the composite payload into the expected
record shape.  Steps: re-raise a queryKernel error unchanged; parse the
envelope; `!response?.databases` returns [] (an absent response or an
absent databases field; a present array, even empty, is truthy); then
`response.prefix.user_namespace_prefix` / `.tenant_namespace_prefix`
throws a TypeError when the prefix record is absent; finally a truthy
selected prefix filters with String.startsWith and a falsy one yields []. -/
def fetchFilteredDatabases (decode : LCStr → Option DatabasesResponse)
    (tenant : Option LCStr) (qr : QueryResult) :
    Except FetchErr (List LCStr) :=
  match qr.error with
  | some e => .error (.kernelError e)
  | none =>
    match parseKernelOutputJSON decode qr.data with
    | .error e => .error (.jsError e)
    | .ok response =>
      match response with
      | none => .ok []
      | some r =>
        match r.databases with
        | none => .ok []
        | some ds =>
          match r.prefixRec with
          | none => .error (.jsError .typeError)
          | some p =>
            let pre := match tenant with
              | none => p.userNsPre
              | some _ => p.tenantNsPre
            if jsTruthyStr pre then
              .ok (ds.filter fun db => (pre.getD []).isPrefixOf db)
            else
              .ok []

/-! ## Theorems: output envelope parser -/

/-- Wrapping any text in one layer of apostrophes is undone exactly by
stripQuotes, whatever the text contains. -/
lemma stripQuotes_wrap (t : LCStr) :
    stripQuotes (squote :: (t ++ [squote])) = t := by
  simp [stripQuotes, List.getLast?_concat, List.dropLast_concat]

/-- A text with no leading and no trailing apostrophe is left unchanged
by stripQuotes. -/
lemma stripQuotes_id (s : LCStr) (hhead : s.head? ≠ some squote)
    (hlast : s.getLast? ≠ some squote) : stripQuotes s = s := by
  unfold stripQuotes
  cases s with
  | nil => rfl
  | cons c t =>
    have hc : c ≠ squote := by
      intro h
      exact hhead (by simp [h])
    simp only [if_neg hc]
    rw [if_neg hlast]

/-- parseKernelOutputJSON on a text/plain envelope is decode after
stripQuotes. -/
lemma parseKernelOutputJSON_mkTextOutput {J : Type}
    (decode : LCStr → Option J) (t : LCStr) :
    parseKernelOutputJSON decode (mkTextOutput t)
      = match decode (stripQuotes t) with
        | some v => .ok (some v)
        | none => .ok none := by
  cases h : decode (stripQuotes t) <;>
    simp [parseKernelOutputJSON, mkTextOutput, lookupMime, parseTry, h]

/-- C7: parseKernelOutputJSON strips exactly one leading and one trailing
quote character from the text payload if present — never two layers —
before JSON-decoding it, so parsing a single-quote-wrapped encoding of a
value and parsing the already-unwrapped encoding of the same value yield
the same decoded value. -/
theorem parseKernelOutputJSON_single_quote_layer {J : Type}
    (decode : LCStr → Option J) (s : LCStr)
    (hhead : s.head? ≠ some squote) (hlast : s.getLast? ≠ some squote) :
    parseKernelOutputJSON decode (mkTextOutput (squote :: (s ++ [squote])))
      = parseKernelOutputJSON decode (mkTextOutput s) ∧
    stripQuotes (squote :: (s ++ [squote])) = s ∧
    stripQuotes s = s ∧
    stripQuotes (squote :: ((squote :: (s ++ [squote])) ++ [squote]))
      = squote :: (s ++ [squote]) := by
  refine ⟨?_, stripQuotes_wrap s, stripQuotes_id s hhead hlast, stripQuotes_wrap _⟩
  rw [parseKernelOutputJSON_mkTextOutput, parseKernelOutputJSON_mkTextOutput,
    stripQuotes_wrap, stripQuotes_id s hhead hlast]

/-- Witness for C7 at the concrete payload "a". -/
theorem parseKernelOutputJSON_single_quote_layer_witness :
    parseKernelOutputJSON Option.some (mkTextOutput (squote :: (['a'] ++ [squote])))
      = parseKernelOutputJSON Option.some (mkTextOutput ['a']) ∧
    stripQuotes (squote :: (['a'] ++ [squote])) = ['a'] := by
  have h := parseKernelOutputJSON_single_quote_layer Option.some ['a']
    (by decide) (by decide)
  exact ⟨h.1, h.2.1⟩

/-- Whether an envelope carries a text/plain entry in an object-valued
data field (the guard chain of parseKernelOutputJSON). -/
def hasTextPlain (o : IOutput) : Bool :=
  match o.data with
  | some (.objData entries) => (lookupMime entries .textPlain).isSome
  | _ => false

/-- The text/plain payload of an envelope, when present. -/
def getTextPayload (o : IOutput) : Option JsVal :=
  match o.data with
  | some (.objData entries) => lookupMime entries .textPlain
  | _ => none

/-- C8: parseKernelOutputJSON never throws for any input envelope: a
missing envelope, an envelope without a text/plain payload, and a
payload that fails to decode all yield the no-value result (undefined)
rather than an exception. -/
theorem parseKernelOutputJSON_never_throws {J : Type}
    (decode : LCStr → Option J) :
    (∀ output e, parseKernelOutputJSON decode output ≠ .error e) ∧
    (parseKernelOutputJSON decode none = .ok none) ∧
    (∀ o, hasTextPlain o = false →
      parseKernelOutputJSON decode (some o) = .ok none) ∧
    (∀ o s, getTextPayload o = some (.str s) → decode (stripQuotes s) = none →
      parseKernelOutputJSON decode (some o) = .ok none) := by
  refine ⟨?_, rfl, ?_, ?_⟩
  · intro output e
    match output with
    | none => simp [parseKernelOutputJSON]
    | some o =>
      match hd : o.data with
      | none => simp [parseKernelOutputJSON, hd]
      | some .nonObjData => simp [parseKernelOutputJSON, hd]
      | some (.objData entries) =>
        match hl : lookupMime entries .textPlain with
        | none => simp [parseKernelOutputJSON, hd, hl]
        | some payload =>
          match ht : parseTry decode payload with
          | .ok v => simp [parseKernelOutputJSON, hd, hl, ht]
          | .error e2 => simp [parseKernelOutputJSON, hd, hl, ht]
  · intro o h
    match hd : o.data with
    | none => simp [parseKernelOutputJSON, hd]
    | some .nonObjData => simp [parseKernelOutputJSON, hd]
    | some (.objData entries) =>
      simp only [hasTextPlain, hd] at h
      cases hl : lookupMime entries .textPlain with
      | none => simp [parseKernelOutputJSON, hd, hl]
      | some payload => rw [hl] at h; simp at h
  · intro o s hp hdec
    match hd : o.data with
    | none => simp [parseKernelOutputJSON, hd]
    | some .nonObjData => simp [parseKernelOutputJSON, hd]
    | some (.objData entries) =>
      simp only [getTextPayload, hd] at hp
      simp [parseKernelOutputJSON, hd, hp, parseTry, hdec]

/-- Witness for C8 at concrete envelopes: a decode-failing payload, a
missing envelope, and an envelope without text/plain. -/
theorem parseKernelOutputJSON_never_throws_witness :
    (parseKernelOutputJSON (fun _ => (none : Option Nat)) (mkTextOutput ['a'])
      ≠ .error .typeError) ∧
    parseKernelOutputJSON (fun _ => (none : Option Nat)) none = .ok none ∧
    parseKernelOutputJSON (fun _ => (none : Option Nat)) (some ⟨none⟩) = .ok none ∧
    parseKernelOutputJSON (fun _ => (none : Option Nat)) (mkTextOutput ['a'])
      = .ok none := by
  have h := parseKernelOutputJSON_never_throws (fun _ => (none : Option Nat))
  exact ⟨h.1 (mkTextOutput ['a']) .typeError, h.2.1,
    h.2.2.1 ⟨none⟩ (by decide),
    h.2.2.2 ⟨some (.objData [(.textPlain, .str ['a'])])⟩ ['a'] (by decide) rfl⟩

/-! ## Theorems: filtered-query composer -/

deriving instance DecidableEq for Except

/-- Unfolding of fetchFilteredDatabases once the kernel call succeeded
and its envelope has been parsed. -/
lemma fetchFilteredDatabases_parsed (decode : LCStr → Option DatabasesResponse)
    (tenant : Option LCStr) (qr : QueryResult) (r : Option DatabasesResponse)
    (hqe : qr.error = none)
    (hp : parseKernelOutputJSON decode qr.data = .ok r) :
    fetchFilteredDatabases decode tenant qr =
      match r with
      | none => .ok []
      | some rr =>
        match rr.databases with
        | none => .ok []
        | some ds =>
          match rr.prefixRec with
          | none => .error (.jsError .typeError)
          | some p =>
            let pre := match tenant with
              | none => p.userNsPre
              | some _ => p.tenantNsPre
            if jsTruthyStr pre then
              .ok (ds.filter fun db => (pre.getD []).isPrefixOf db)
            else
              .ok [] := by
  simp only [fetchFilteredDatabases, hqe, hp]
  rcases r with _ | rr <;> rfl

/-- C3 counterexample: a parsed result that is malformed — it has a
databases field but no prefix record — makes fetchFilteredDatabases
throw a TypeError (reading user_namespace_prefix of undefined) instead
of returning the empty list. -/
theorem fetchFilteredDatabases_malformed_throws_counterexample :
    fetchFilteredDatabases
        (fun _ => some { databases := some [['a']], prefixRec := none })
        none { data := mkTextOutput ['x'], error := none }
      = .error (.jsError .typeError) ∧
    fetchFilteredDatabases
        (fun _ => some { databases := some [['a']], prefixRec := none })
        none { data := mkTextOutput ['x'], error := none }
      ≠ .ok [] := by
  exact ⟨by decide, by decide⟩

/-- C3 (amended): fetchFilteredDatabases re-raises a kernel execution
error unchanged; an absent parsed result and a parsed result without a
databases field both yield the empty list; but a parsed result that has
a databases field while lacking the prefix record raises a TypeError
rather than returning the empty list. -/
theorem fetchFilteredDatabases_error_handling
    (decode : LCStr → Option DatabasesResponse) (tenant : Option LCStr)
    (qr : QueryResult) :
    (∀ e, qr.error = some e →
      fetchFilteredDatabases decode tenant qr = .error (.kernelError e)) ∧
    (qr.error = none → parseKernelOutputJSON decode qr.data = .ok none →
      fetchFilteredDatabases decode tenant qr = .ok []) ∧
    (∀ r, qr.error = none →
      parseKernelOutputJSON decode qr.data = .ok (some r) →
      r.databases = none →
      fetchFilteredDatabases decode tenant qr = .ok []) ∧
    (∀ r ds, qr.error = none →
      parseKernelOutputJSON decode qr.data = .ok (some r) →
      r.databases = some ds → r.prefixRec = none →
      fetchFilteredDatabases decode tenant qr = .error (.jsError .typeError)) := by
  refine ⟨?_, ?_, ?_, ?_⟩
  · intro e he
    simp only [fetchFilteredDatabases, he]
  · intro hqe hp
    rw [fetchFilteredDatabases_parsed decode tenant qr none hqe hp]
  · intro r hqe hp hdb
    rw [fetchFilteredDatabases_parsed decode tenant qr (some r) hqe hp]
    simp only [hdb]
  · intro r ds hqe hp hdb hpre
    rw [fetchFilteredDatabases_parsed decode tenant qr (some r) hqe hp]
    simp only [hdb, hpre]

/-- Witness for C3 (amended) at concrete inputs. -/
theorem fetchFilteredDatabases_error_handling_witness :
    fetchFilteredDatabases (fun _ => none) none
        { data := none, error := some ⟨.execution_error, none, none, none⟩ }
      = .error (.kernelError ⟨.execution_error, none, none, none⟩) ∧
    fetchFilteredDatabases (fun _ => none) none
        { data := none, error := none } = .ok [] ∧
    fetchFilteredDatabases (fun _ => some { databases := none, prefixRec := none })
        none { data := mkTextOutput ['x'], error := none } = .ok [] ∧
    fetchFilteredDatabases (fun _ => some { databases := some [], prefixRec := none })
        none { data := mkTextOutput ['x'], error := none }
      = .error (.jsError .typeError) := by
  refine ⟨?_, ?_, ?_, ?_⟩
  · exact (fetchFilteredDatabases_error_handling (fun _ => none) none
      { data := none, error := some ⟨.execution_error, none, none, none⟩ }).1
      ⟨.execution_error, none, none, none⟩ rfl
  · exact (fetchFilteredDatabases_error_handling (fun _ => none) none
      { data := none, error := none }).2.1 rfl rfl
  · exact (fetchFilteredDatabases_error_handling
      (fun _ => some { databases := none, prefixRec := none }) none
      { data := mkTextOutput ['x'], error := none }).2.2.1
      { databases := none, prefixRec := none } rfl (by decide) rfl
  · exact (fetchFilteredDatabases_error_handling
      (fun _ => some { databases := some [], prefixRec := none }) none
      { data := mkTextOutput ['x'], error := none }).2.2.2
      { databases := some [], prefixRec := none } [] rfl (by decide) rfl rfl

/-- C6: on a well-formed parsed result, fetchFilteredDatabases selects
the user's own namespace prefix when no tenant is given and the tenant's
namespace prefix otherwise, and returns exactly the subsequence of the
databases list whose names start with the selected prefix, in original
order; a null/absent selected prefix yields the empty list. -/
theorem fetchFilteredDatabases_prefix_filtering
    (decode : LCStr → Option DatabasesResponse) (qr : QueryResult)
    (ds : List LCStr) (p : PrefixRecord)
    (hqe : qr.error = none)
    (hp : parseKernelOutputJSON decode qr.data
      = .ok (some { databases := some ds, prefixRec := some p })) :
    (∀ pre, p.userNsPre = some pre → pre ≠ [] →
      fetchFilteredDatabases decode none qr
        = .ok (ds.filter fun db => pre.isPrefixOf db) ∧
      (ds.filter fun db => pre.isPrefixOf db).Sublist ds ∧
      (∀ db, db ∈ ds.filter (fun db => pre.isPrefixOf db)
        ↔ db ∈ ds ∧ pre.isPrefixOf db = true)) ∧
    (p.userNsPre = none → fetchFilteredDatabases decode none qr = .ok []) ∧
    (∀ tn pre, p.tenantNsPre = some pre → pre ≠ [] →
      fetchFilteredDatabases decode (some tn) qr
        = .ok (ds.filter fun db => pre.isPrefixOf db)) ∧
    (∀ tn, p.tenantNsPre = none →
      fetchFilteredDatabases decode (some tn) qr = .ok []) := by
  refine ⟨?_, ?_, ?_, ?_⟩
  · intro pre hpre hne
    rw [fetchFilteredDatabases_parsed decode none qr _ hqe hp]
    simp only [hpre]
    obtain ⟨c, t, rfl⟩ : ∃ c t, pre = c :: t := by
      cases pre with
      | nil => exact absurd rfl hne
      | cons c t => exact ⟨c, t, rfl⟩
    exact ⟨rfl, List.filter_sublist ds, fun db => List.mem_filter⟩
  · intro hpre
    rw [fetchFilteredDatabases_parsed decode none qr _ hqe hp]
    simp only [hpre]
    rfl
  · intro tn pre hpre hne
    rw [fetchFilteredDatabases_parsed decode (some tn) qr _ hqe hp]
    simp only [hpre]
    obtain ⟨c, t, rfl⟩ : ∃ c t, pre = c :: t := by
      cases pre with
      | nil => exact absurd rfl hne
      | cons c t => exact ⟨c, t, rfl⟩
    rfl
  · intro tn hpre
    rw [fetchFilteredDatabases_parsed decode (some tn) qr _ hqe hp]
    simp only [hpre]
    rfl

/-- Witness for C6: the concrete example of the claim — databases
acme_orders, acme_users, other_x with selected prefix acme_ yield
acme_orders, acme_users in order, and a null tenant prefix yields []. -/
theorem fetchFilteredDatabases_prefix_filtering_witness :
    fetchFilteredDatabases
        (fun _ => some
          { databases := some
              ["acme_orders".toList, "acme_users".toList, "other_x".toList],
            prefixRec := some { userNsPre := some ("acme_".toList) } })
        none { data := mkTextOutput ['x'], error := none }
      = .ok ["acme_orders".toList, "acme_users".toList] ∧
    fetchFilteredDatabases
        (fun _ => some
          { databases := some
              ["acme_orders".toList, "acme_users".toList, "other_x".toList],
            prefixRec := some { userNsPre := some ("acme_".toList) } })
        (some ("acme".toList)) { data := mkTextOutput ['x'], error := none }
      = .ok [] := by
  have h := fetchFilteredDatabases_prefix_filtering
    (fun _ => some
      { databases := some
          ["acme_orders".toList, "acme_users".toList, "other_x".toList],
        prefixRec := some { userNsPre := some ("acme_".toList) } })
    { data := mkTextOutput ['x'], error := none }
    ["acme_orders".toList, "acme_users".toList, "other_x".toList]
    { userNsPre := some ("acme_".toList) }
    rfl (by decide)
  refine ⟨((h.1 ("acme_".toList) rfl (by decide)).1).trans (by decide), ?_⟩
  exact h.2.2.2 ("acme".toList) rfl

/-- C10: when the selected namespace prefix is the empty string,
fetchFilteredDatabases returns the empty list — the empty string is
treated like a null/absent prefix (it is falsy in the `prefix ?` test),
not as a prefix of every database name. -/
theorem fetchFilteredDatabases_empty_string_prefix
    (decode : LCStr → Option DatabasesResponse) (qr : QueryResult)
    (ds : List LCStr) (p : PrefixRecord)
    (hqe : qr.error = none)
    (hp : parseKernelOutputJSON decode qr.data
      = .ok (some { databases := some ds, prefixRec := some p })) :
    (p.userNsPre = some [] → fetchFilteredDatabases decode none qr = .ok []) ∧
    (∀ tn, p.tenantNsPre = some [] →
      fetchFilteredDatabases decode (some tn) qr = .ok []) := by
  constructor
  · intro hpre
    rw [fetchFilteredDatabases_parsed decode none qr _ hqe hp]
    simp only [hpre]
    rfl
  · intro tn hpre
    rw [fetchFilteredDatabases_parsed decode (some tn) qr _ hqe hp]
    simp only [hpre]
    rfl

/-- Witness for C10: every database name starts with the empty string,
yet an empty user prefix and an empty tenant prefix both give []. -/
theorem fetchFilteredDatabases_empty_string_prefix_witness :
    fetchFilteredDatabases
        (fun _ => some
          { databases := some ["acme_orders".toList, "other_x".toList],
            prefixRec := some { userNsPre := some [], tenantNsPre := some [] } })
        none { data := mkTextOutput ['x'], error := none } = .ok [] ∧
    fetchFilteredDatabases
        (fun _ => some
          { databases := some ["acme_orders".toList, "other_x".toList],
            prefixRec := some { userNsPre := some [], tenantNsPre := some [] } })
        (some ("t".toList)) { data := mkTextOutput ['x'], error := none }
      = .ok [] := by
  have h := fetchFilteredDatabases_empty_string_prefix
    (fun _ => some
      { databases := some ["acme_orders".toList, "other_x".toList],
        prefixRec := some { userNsPre := some [], tenantNsPre := some [] } })
    { data := mkTextOutput ['x'], error := none }
    ["acme_orders".toList, "other_x".toList]
    { userNsPre := some [], tenantNsPre := some [] }
    rfl (by decide)
  exact ⟨h.1 rfl, h.2 ("t".toList) rfl⟩

/-! ## Theorems: readiness waiter -/

/-- C4: evaluation of waitForKernelReady at the failing input — kernel
initially busy and no status change before the timer fires.  The call
settles with the timeout error (so exactly one outcome occurs), but the
onStatusChanged observer is still connected after the promise settled:
the timeout callback rejects without disconnecting, so the subscription
is NOT released on the timeout exit path, while the ready and bad-status
paths do disconnect. -/
theorem waitForKernelReady_timeout_leaks_observer :
    (waitForKernelReadyRun .busy [.timerFire]).outcome
      = some (.failed ⟨.timeout, none, none, none⟩) ∧
    (waitForKernelReadyRun .busy [.timerFire]).connected = true ∧
    (waitForKernelReadyRun .busy [.statusChanged .idle]).connected = false ∧
    (waitForKernelReadyRun .busy [.statusChanged .dead]).connected = false ∧
    (waitForKernelReadyRun .idle []).connected = false := by
  decide

/-! ## Theorems: execution protocol client, pre-execution phase -/

/-- C9: queryKernel returns every pre-execution failure as a typed error
in the error field of its result rather than throwing: a session without
a live kernel connection fails immediately with not_available; an error
from the readiness wait is propagated unchanged when it is already a
typed kernel error and mapped to not_ready otherwise; a successful
readiness wait produces no early error. -/
theorem queryKernel_pre_typed_errors :
    (∀ ready, queryKernelPre none ready
      = some ⟨.not_available, none, none, none⟩) ∧
    (∀ e, queryKernelPre (some ()) (.error (.typed e)) = some e) ∧
    (queryKernelPre (some ()) (.error .untyped)
      = some ⟨.not_ready, none, none, none⟩) ∧
    (queryKernelPre (some ()) (.ok ()) = none) := by
  refine ⟨fun ready => rfl, fun e => rfl, rfl, rfl⟩

/-- Once the request has resolved, no later event changes the
resolution. -/
lemma queryKernelStep_some (o : ExecOutcome) (e : ExecEvent) :
    queryKernelStep (some o) e = some o := by
  cases e with
  | iopub m => cases m <;> rfl
  | timerFire => rfl

/-- Folding any event list from a resolved state keeps the resolution. -/
lemma foldl_queryKernelStep_some (o : ExecOutcome) (es : List ExecEvent) :
    es.foldl queryKernelStep (some o) = some o := by
  induction es with
  | nil => rfl
  | cons e es ih => rw [List.foldl_cons, queryKernelStep_some]; exact ih

/-- C1: for every execution request, exactly one outcome is produced —
once the timeout timer has fired the request is certainly resolved
(existence), the first resolution is never overwritten by later events,
including a stray error after a result (first writer wins), and a
stream-text message at any point never changes or fills the outcome. -/
theorem queryKernel_at_most_one_resolution :
    (∀ es, ExecEvent.timerFire ∈ es → (queryKernelRun es).isSome = true) ∧
    (∀ es es2 o, queryKernelRun es = some o →
      queryKernelRun (es ++ es2) = some o) ∧
    (∀ es ch txt,
      queryKernelRun (es ++ [.iopub (.streamText ch txt)]) = queryKernelRun es) := by
  have habsorb : ∀ es o, queryKernelRun es = some o →
      ∀ es2, queryKernelRun (es ++ es2) = some o := by
    intro es o h es2
    rw [queryKernelRun, List.foldl_append]
    rw [queryKernelRun] at h
    rw [h]
    exact foldl_queryKernelStep_some o es2
  refine ⟨?_, fun es es2 o h => habsorb es o h es2, ?_⟩
  · intro es hmem
    induction es with
    | nil => cases hmem
    | cons e es ih =>
      rw [queryKernelRun, List.foldl_cons]
      rcases List.mem_cons.mp hmem with he | hes
      · subst he
        rw [show queryKernelStep none ExecEvent.timerFire
              = some (.errOut ⟨.timeout, none, none, none⟩) from rfl]
        rw [foldl_queryKernelStep_some]
        rfl
      · cases hstep : queryKernelStep none e with
        | some o => rw [foldl_queryKernelStep_some]; rfl
        | none => exact ih hes
  · intro es ch txt
    rw [queryKernelRun, List.foldl_append]
    cases h : queryKernelRun es with
    | none => rw [queryKernelRun] at h; rw [h]; rfl
    | some o =>
      rw [queryKernelRun] at h
      rw [h, List.foldl_cons, queryKernelStep_some]
      rfl

/-- Witness for C1 at concrete event streams: a stream message then the
timer resolves the request; a result followed by a stray error keeps the
result; a trailing stream message changes nothing. -/
theorem queryKernel_at_most_one_resolution_witness :
    (queryKernelRun [.iopub (.streamText .stdout ['h']), .timerFire]).isSome
      = true ∧
    queryKernelRun ([.iopub (.executeResult ⟨none⟩), .timerFire]
        ++ [.iopub (.errorMsg ['e'] ['v'] none)])
      = some (.dataOut ⟨none⟩) ∧
    queryKernelRun ([.timerFire] ++ [.iopub (.streamText .stderr ['w'])])
      = queryKernelRun [.timerFire] := by
  have h := queryKernel_at_most_one_resolution
  exact ⟨h.1 [.iopub (.streamText .stdout ['h']), .timerFire] (by decide),
    h.2.1 [.iopub (.executeResult ⟨none⟩), .timerFire]
      [.iopub (.errorMsg ['e'] ['v'] none)] (.dataOut ⟨none⟩) (by decide),
    h.2.2 [.timerFire] .stderr ['w']⟩

/-! ## Theorems: session manager -/

/-- After n ≥ 1 concurrent callers have arrived while no session exists,
exactly one initialization is in flight and every caller is attached to
the same shared promise. -/
lemma sessionManagerRun_arrivals (n : Nat) (h : 1 ≤ n) :
    sessionManagerRun (arrivals n) =
      { ctx := none, prom := some 0, err := none, initCount := 1,
        reconnectCount := 0, waiters := (List.range n).reverse,
        outcomes := [] } := by
  induction n, h using Nat.le_induction with
  | base => decide
  | succ n hn ih =>
    have harr : arrivals (n + 1) = arrivals n ++ [SMEvent.arrive n] := by
      rw [arrivals, arrivals, List.range_succ, List.map_append]
      rfl
    rw [harr, sessionManagerRun, List.foldl_append, ← sessionManagerRun, ih]
    simp [getOrCreateSharedSessionStep, List.range_succ]

/-- C2: n ≥ 1 concurrent callers of getOrCreateSharedSession while no
session exists cause exactly one initialization (one engine connection
provisioned); every one of the n callers receives the settlement of the
same shared promise — the same session on success, the same error on
failure — and nothing else; and an initialization failure clears the
in-flight promise, so a later caller starts initialization from
scratch. -/
theorem getOrCreateSharedSession_idempotent (n : Nat) (h : 1 ≤ n)
    (r : Except Nat Nat) :
    (sessionManagerRun (arrivals n ++ [.settleInit r])).initCount = 1 ∧
    (∀ c, c < n → (c, settleOutcome r)
      ∈ (sessionManagerRun (arrivals n ++ [.settleInit r])).outcomes) ∧
    (∀ q ∈ (sessionManagerRun (arrivals n ++ [.settleInit r])).outcomes,
      q.2 = settleOutcome r) ∧
    (∀ eid, r = .error eid →
      (sessionManagerRun (arrivals n ++ [.settleInit r])).prom = none ∧
      ∀ m, (sessionManagerRun
          (arrivals n ++ [.settleInit r, .arrive m])).initCount = 2) := by
  have hrun : sessionManagerRun (arrivals n ++ [.settleInit r]) =
      { ctx := match r with | .ok s => some s | .error _ => none,
        prom := match r with | .ok _ => some 0 | .error _ => none,
        err := none, initCount := 1, reconnectCount := 0, waiters := [],
        outcomes := (List.range n).reverse.map fun c => (c, settleOutcome r) } := by
    rw [sessionManagerRun, List.foldl_append, ← sessionManagerRun,
      sessionManagerRun_arrivals n h]
    cases r with
    | ok s => simp [getOrCreateSharedSessionStep, settleOutcome]
    | error eid => simp [getOrCreateSharedSessionStep, settleOutcome]
  refine ⟨?_, ?_, ?_, ?_⟩
  · rw [hrun]
  · intro c hc
    rw [hrun]
    exact List.mem_map.mpr
      ⟨c, List.mem_reverse.mpr (List.mem_range.mpr hc), rfl⟩
  · intro q hq
    rw [hrun] at hq
    obtain ⟨c, _, rfl⟩ := List.mem_map.mp hq
    rfl
  · intro eid hr
    subst hr
    refine ⟨by rw [hrun], ?_⟩
    intro m
    have hsplit : arrivals n ++ [SMEvent.settleInit (.error eid), .arrive m]
        = (arrivals n ++ [SMEvent.settleInit (.error eid)]) ++ [.arrive m] := by
      rw [List.append_assoc]
      rfl
    rw [hsplit, sessionManagerRun, List.foldl_append, ← sessionManagerRun, hrun]
    rfl

/-- Witness for C2 at n = 3 callers and a failing initialization: one
initialization, all three callers get the same error, the promise is
cleared, and a fourth caller restarts initialization. -/
theorem getOrCreateSharedSession_idempotent_witness :
    (sessionManagerRun (arrivals 3 ++ [.settleInit (.error 5)])).initCount
      = 1 ∧
    ((2 : Nat), AcquireOutcome.gotError 5)
      ∈ (sessionManagerRun (arrivals 3 ++ [.settleInit (.error 5)])).outcomes ∧
    (sessionManagerRun (arrivals 3 ++ [.settleInit (.error 5)])).prom
      = none ∧
    (sessionManagerRun
        (arrivals 3 ++ [.settleInit (.error 5), .arrive 7])).initCount = 2 := by
  have h := getOrCreateSharedSession_idempotent 3 (by decide) (.error 5)
  exact ⟨h.1, h.2.1 2 (by decide), (h.2.2.2 5 rfl).1, (h.2.2.2 5 rfl).2 7⟩

/-- C5 counterexample: after a successful initialization, a dead report
whose reconnection fails, and then a further acquisition request, no
re-initialization is attempted — the acquisition returns the same (dead)
session immediately, the initialization count stays at 1, and the
recorded error persists.  This contradicts the claim that the session is
left unusable only "until the next explicit acquisition request attempts
re-initialization": no acquisition ever re-initializes, because
sharedSessionContext is never cleared. -/
theorem getOrCreateSharedSession_no_reinit_counterexample :
    (sessionManagerRun
        [.arrive 0, .settleInit (.ok 7), .deadReport false, .arrive 1]).initCount
      = 1 ∧
    ((1 : Nat), AcquireOutcome.gotSession 7)
      ∈ (sessionManagerRun
          [.arrive 0, .settleInit (.ok 7), .deadReport false, .arrive 1]).outcomes ∧
    (sessionManagerRun
        [.arrive 0, .settleInit (.ok 7), .deadReport false, .arrive 1]).err
      = some .reconnectFailed := by
  decide

/-- C5 (amended): a dead report on the established shared session makes
exactly one reconnection attempt without operator intervention; on
success the recorded shared error is cleared; on failure a persistent
error is recorded, and subsequent acquisition requests return the same
session immediately, without attempting re-initialization, while the
recorded error persists. -/
theorem getOrCreateSharedSession_reconnection (st : SMState) (s : Nat)
    (hctx : st.ctx = some s) :
    (getOrCreateSharedSessionStep st (.deadReport true)).reconnectCount
      = st.reconnectCount + 1 ∧
    (getOrCreateSharedSessionStep st (.deadReport true)).err = none ∧
    (getOrCreateSharedSessionStep st (.deadReport false)).reconnectCount
      = st.reconnectCount + 1 ∧
    (getOrCreateSharedSessionStep st (.deadReport false)).err
      = some .reconnectFailed ∧
    (∀ c,
      (getOrCreateSharedSessionStep
        (getOrCreateSharedSessionStep st (.deadReport false))
        (.arrive c)).initCount = st.initCount ∧
      (getOrCreateSharedSessionStep
        (getOrCreateSharedSessionStep st (.deadReport false))
        (.arrive c)).err = some .reconnectFailed ∧
      (c, AcquireOutcome.gotSession s)
        ∈ (getOrCreateSharedSessionStep
            (getOrCreateSharedSessionStep st (.deadReport false))
            (.arrive c)).outcomes) := by
  simp only [getOrCreateSharedSessionStep, hctx]
  refine ⟨rfl, rfl, rfl, rfl, ?_⟩
  intro c
  exact ⟨rfl, rfl, List.mem_cons_self _ _⟩

/-- Witness for C5 (amended) at the state reached by one successful
initialization. -/
theorem getOrCreateSharedSession_reconnection_witness :
    (getOrCreateSharedSessionStep
        (sessionManagerRun [.arrive 0, .settleInit (.ok 7)])
        (.deadReport true)).err = none ∧
    (getOrCreateSharedSessionStep
        (sessionManagerRun [.arrive 0, .settleInit (.ok 7)])
        (.deadReport false)).reconnectCount = 1 ∧
    (getOrCreateSharedSessionStep
        (getOrCreateSharedSessionStep
          (sessionManagerRun [.arrive 0, .settleInit (.ok 7)])
          (.deadReport false))
        (.arrive 1)).initCount = 1 := by
  have h := getOrCreateSharedSession_reconnection
    (sessionManagerRun [.arrive 0, .settleInit (.ok 7)]) 7 (by decide)
  exact ⟨h.2.1, h.2.2.1.trans (by decide), ((h.2.2.2.2 1).1).trans (by decide)⟩
